import Mathlib

/-!
Verification of the NDEF record engine (`src/core/src/nfc_ndef_rec.c`) against
its natural-language specification.

The C code is shallowly embedded: byte buffers become `List Nat` (each element
a byte value), `GUtilData` views into a record's owned buffer become an
optional offset plus a size (`GUtilView`, where `none` models a NULL pointer),
records become a structure, and the singly linked `next` chain becomes a
`List` of records (the empty list models a NULL return).  Machine integers are
`Nat`; the one place the C code truncates (`(guint8)type->size` in the
synthesizer) is modelled with an explicit `% 256`.  The `guint` accumulation
of `total_len` in the parser cannot wrap because `payload_length` is checked
against `2^31` before `total_len` is ever compared, and all other summands are
at most `255 + 255 + 6`, so plain `Nat` arithmetic is extensionally faithful.
-/

namespace Nfcd

/-! ### Header bit constants

Values are from the wire-format table in the specification (the private
header `nfc_ndef_p.h` that `#define`s them is not part of the sampled
sources): MB(0x80) ME(0x40) CF(0x20) SR(0x10) IL(0x08) TNF(0x07). -/

def NFC_NDEF_HDR_MB : Nat := 0x80

def NFC_NDEF_HDR_ME : Nat := 0x40

def NFC_NDEF_HDR_CF : Nat := 0x20

def NFC_NDEF_HDR_SR : Nat := 0x10

def NFC_NDEF_HDR_IL : Nat := 0x08

def NFC_NDEF_HDR_TNF_MASK : Nat := 0x07

/-! ### TNF values, RTD tags and record flags

Modelled from the spec: the TNF enumeration is
`{Empty=0, WellKnown=1, MediaType=2, AbsoluteURI=3, ExternalType=4,
Unknown=5, Unchanged=6}` and a raw TNF field value of 7 (the only 3-bit
value outside that range) triggers the clamp branch of
`nfc_ndef_rec_initialize`; hence the exclusive upper bound used by that
branch is 7.  The defining header `nfc_ndef.h` is not in the sampled
sources. -/

def NFC_NDEF_TNF_EMPTY : Nat := 0

def NFC_NDEF_TNF_WELL_KNOWN : Nat := 1

def NFC_NDEF_TNF_MEDIA_TYPE : Nat := 2

def NFC_NDEF_TNF_ABSOLUTE_URI : Nat := 3

def NFC_NDEF_TNF_EXTERNAL : Nat := 4

def NFC_NDEF_TNF_UNKNOWN : Nat := 5

def NFC_NDEF_TNF_UNCHANGED : Nat := 6

def NFC_NDEF_TNF_MAX : Nat := 7

/-- Modelled from the spec: the Record Type Definition tag carried by every
record (`NFC_NDEF_RTD` in the missing public header); `unknown` is the
zero/default value. -/
inductive NFC_NDEF_RTD where
  | unknown
  | uri
  | text
  | smart_poster
  | handover_request
  | handover_select
  | handover_carrier
  | alternative_carrier
  | collision_resolution
  | error
deriving DecidableEq

/-- Modelled from the spec: `flags` is a bit set over `{First, Last}`
(`NFC_NDEF_REC_FLAG_FIRST`/`NFC_NDEF_REC_FLAG_LAST` in the missing public
header), set from the MB/ME header bits. -/
def NFC_NDEF_REC_FLAG_FIRST : Nat := 0x01

def NFC_NDEF_REC_FLAG_LAST : Nat := 0x02

/-- TLV block type carrying an NDEF message (`TLV_NDEF_MESSAGE` in the
missing `nfc_tlv.h`; the spec gives type byte 0x03). -/
def TLV_NDEF_MESSAGE : Nat := 0x03

/-! ### Data model -/

/-- A `GUtilData` field of a record that points into the record's own `raw`
buffer (or is NULL).  `bytes = none` models a NULL pointer; `bytes = some k`
models `raw.bytes + k`. -/
structure GUtilView where
  bytes : Option Nat
  size : Nat
deriving DecidableEq

/-- The all-zero view left by `g_object_new`'s zero-initialization:
NULL pointer, size 0. -/
def GUtilView.null : GUtilView := { bytes := none, size := 0 }

/-- The bytes a view denotes inside a given raw buffer (NULL denotes no
bytes). -/
def viewBytes (raw : List Nat) (v : GUtilView) : List Nat :=
  match v.bytes with
  | none => []
  | some off => (raw.drop off).take v.size

/-- `NfcNdefData`: the transient header descriptor filled in by
`nfc_ndef_rec_parse`.  `rec'` embeds the `rec` view (a slice of the input
block); the field is primed because Lean reserves `rec`. -/
structure NfcNdefData where
  rec' : List Nat
  type_offset : Nat
  type_length : Nat
  id_length : Nat
  payload_length : Nat
deriving DecidableEq

/-- The zero-filled descriptor produced by `memset(&ndef, 0, sizeof(ndef))`. -/
def NfcNdefData.zero : NfcNdefData :=
  { rec' := [], type_offset := 0, type_length := 0, id_length := 0,
    payload_length := 0 }

/-- `NfcNdefRec`: the record object.  `raw` holds the owned copy of the wire
bytes (`g_memdup` in the C code); `type`, `id`, `payload` are views into it.
The `next` chain is modelled externally as a `List NfcNdefRec`. -/
structure NfcNdefRec where
  tnf : Nat
  rtd : NFC_NDEF_RTD
  flags : Nat
  raw : List Nat
  type : GUtilView
  id : GUtilView
  payload : GUtilView
deriving DecidableEq

/-- The record state right after `g_object_new`: GObject zero-fills the
instance, so every field is 0/NULL (`tnf = NFC_NDEF_TNF_EMPTY`,
`rtd = NFC_NDEF_RTD_UNKNOWN`, empty flags, NULL views). -/
def g_object_new_rec : NfcNdefRec :=
  { tnf := 0, rtd := .unknown, flags := 0, raw := [],
    type := GUtilView.null, id := GUtilView.null, payload := GUtilView.null }

/-! ### nfc_ndef_rec_parse -/

/-- Embeds `nfc_ndef_rec_parse` (nfc_ndef_rec.c lines 92-148).  On success
the C function fills the descriptor and advances the caller's block; here it
returns `some (descriptor, advanced block)`, and `none` models `FALSE`.
Byte reads `block->bytes[i]` become total indexing `block.getD i 0`.
`total_len` is accumulated exactly as in the C code:
`1 (header) + 1 + type_length`, then `1|4 + payload_length`, then
`1 + id_length` when IL is set. -/
def nfc_ndef_rec_parse (block : List Nat) : Option (NfcNdefData × List Nat) :=
  if block.length < 3 then
    none
  else
    let hdr := block.getD 0 0
    let type_length := block.getD 1 0
    let sr := hdr &&& NFC_NDEF_HDR_SR ≠ 0
    let il := hdr &&& NFC_NDEF_HDR_IL ≠ 0
    let payload_length :=
      if sr then block.getD 2 0
      else
        ((block.getD 2 0) <<< 24) ||| ((block.getD 3 0) <<< 16) |||
          ((block.getD 4 0) <<< 8) ||| (block.getD 5 0)
    let plOff := if sr then 3 else 6
    let id_length := if il then block.getD plOff 0 else 0
    let type_offset := if il then plOff + 1 else plOff
    let total_len := 2 + type_length + (if sr then 1 else 4) + payload_length
      + (if il then 1 + id_length else 0)
    if payload_length < 0x80000000 ∧ total_len ≤ block.length then
      some ({ rec' := block.take total_len, type_offset := type_offset,
              type_length := type_length, id_length := id_length,
              payload_length := payload_length },
            block.drop total_len)
    else
      none

/-- The bounds-check companion of `nfc_ndef_rec_parse`: `true` iff every
index the C code dereferences in `block->bytes` on this input lies inside
`[0, block.size)`.  Indices 0 and 1 are always read (guarded by the
`size < 3` check); index 2 (or 2..5 when SR is clear) holds the payload
length; the id-length byte at index 3 (SR) or 6 (long form) is read when IL
is set. -/
def nfc_ndef_rec_parse_inbounds (block : List Nat) : Bool :=
  if block.length < 3 then
    true
  else
    let hdr := block.getD 0 0
    let sr := hdr &&& NFC_NDEF_HDR_SR ≠ 0
    let il := hdr &&& NFC_NDEF_HDR_IL ≠ 0
    (if sr then decide (2 < block.length) else decide (5 < block.length)) &&
      (if il then decide ((if sr then 3 else 6) < block.length) else true)

theorem parse_rest_length (block : List Nat) (ndef : NfcNdefData)
    (rest : List Nat) (h : nfc_ndef_rec_parse block = some (ndef, rest)) :
    rest.length < block.length := by
  simp only [nfc_ndef_rec_parse] at h
  split at h
  · simp at h
  · next hlen =>
    split at h <;> split at h <;> split at h <;>
      first
      | exact Option.noConfusion h
      | (simp only [Option.some.injEq, Prod.mk.injEq] at h
         obtain ⟨-, hrest⟩ := h
         subst hrest
         simp only [List.length_drop]
         omega)

theorem parse_rec_ne_nil (block : List Nat) (ndef : NfcNdefData)
    (rest : List Nat) (h : nfc_ndef_rec_parse block = some (ndef, rest)) :
    ndef.rec' ≠ [] := by
  simp only [nfc_ndef_rec_parse] at h
  split at h
  · simp at h
  · next hlen =>
    split at h <;> split at h <;> split at h <;>
      first
      | exact Option.noConfusion h
      | (simp only [Option.some.injEq, Prod.mk.injEq] at h
         obtain ⟨hd, -⟩ := h
         subst hd
         simp only [ne_eq, List.take_eq_nil_iff, not_or]
         refine ⟨by omega, fun hb => ?_⟩
         rw [hb] at hlen
         simp at hlen)

/-! ### Record construction -/

/-- Embeds `nfc_ndef_rec_initialize` (nfc_ndef_rec.c lines 338-375); the
name is shortened for Lean.  Starting from the zero-filled object `self`, it
copies the TNF field only when it is below `NFC_NDEF_TNF_MAX` (otherwise the
zero-initialized value is kept), sets the First/Last flags from the MB/ME
bits, stores the caller's RTD, copies the wire bytes (`g_memdup`) into `raw`
and points `type` at `type_offset`; `id` and `payload` are set only when
their lengths are non-zero, otherwise they keep the zero-filled NULL view. -/
def nfc_ndef_rec_setup (self : NfcNdefRec) (rtd : NFC_NDEF_RTD)
    (ndef : NfcNdefData) : NfcNdefRec :=
  let hdr := ndef.rec'.getD 0 0
  let tnf := hdr &&& NFC_NDEF_HDR_TNF_MASK
  { self with
    tnf := if tnf < NFC_NDEF_TNF_MAX then tnf else self.tnf
    flags := self.flags
      ||| (if hdr &&& NFC_NDEF_HDR_MB ≠ 0 then NFC_NDEF_REC_FLAG_FIRST else 0)
      ||| (if hdr &&& NFC_NDEF_HDR_ME ≠ 0 then NFC_NDEF_REC_FLAG_LAST else 0)
    rtd := rtd
    raw := ndef.rec'
    type := { bytes := some ndef.type_offset, size := ndef.type_length }
    id :=
      if ndef.id_length > 0 then
        { bytes := some (ndef.type_offset + ndef.type_length),
          size := ndef.id_length }
      else self.id
    payload :=
      if ndef.payload_length ≠ 0 then
        { bytes := some (ndef.type_offset + ndef.type_length + ndef.id_length),
          size := ndef.payload_length }
      else self.payload }

/-- Embeds `nfc_ndef_type` (nfc_ndef_rec.c lines 252-266): the TYPE field
bytes of a descriptor, or the empty view when `type_length` is 0. -/
def nfc_ndef_type (ndef : NfcNdefData) : List Nat :=
  if ndef.type_length ≠ 0 then
    (ndef.rec'.drop ndef.type_offset).take ndef.type_length
  else []

/-- The PAYLOAD field bytes of a descriptor (`nfc_ndef_payload`,
nfc_ndef_rec.c lines 268-283). -/
def nfc_ndef_payload (ndef : NfcNdefData) : List Nat :=
  if ndef.payload_length ≠ 0 then
    (ndef.rec'.drop
        (ndef.type_offset + ndef.type_length + ndef.id_length)).take
      ndef.payload_length
  else []

/-- Modelled from the spec: the interned type constant `"U"` defined in the
URI-record source file `nfc_ndef_rec_u.c`, which is not among the sampled
sources (the spec's dispatch table gives TYPE = "U", one byte, 0x55). -/
def nfc_ndef_rec_type_u : List Nat := [0x55]

/-- Modelled from the spec: the interned type constant `"T"` defined in the
Text-record source file `nfc_ndef_rec_t.c`, not among the sampled sources
(the spec's dispatch table gives TYPE = "T", one byte, 0x54). -/
def nfc_ndef_rec_type_t : List Nat := [0x54]

/-- Modelled from the spec: `nfc_ndef_rec_u_new_from_data` from the missing
`nfc_ndef_rec_u.c`.  Per the spec's URI decode rule the payload is
`[prefix_code][suffix]` and the only stated failure is an empty payload; on
success the record goes through the normal initialization path with RTD URI.
The decoded URI string itself plays no role in the header-level properties
proved here and is not modelled. -/
def nfc_ndef_rec_u_new_from_data (ndef : NfcNdefData) : Option NfcNdefRec :=
  if ndef.payload_length = 0 then none
  else some (nfc_ndef_rec_setup g_object_new_rec .uri ndef)

/-- Modelled from the spec: `nfc_ndef_rec_t_new_from_data` from the missing
`nfc_ndef_rec_t.c`.  Per the spec's Text decode rule the payload starts with
a status byte whose bit 6 must be 0 and whose low 6 bits give the language
length L, with `1 + L ≤ payload_length`; failures degrade to a generic
record.  The decoded language/text strings play no role in the header-level
properties proved here and are not modelled. -/
def nfc_ndef_rec_t_new_from_data (ndef : NfcNdefData) : Option NfcNdefRec :=
  match nfc_ndef_payload ndef with
  | [] => none
  | s :: _ =>
    if s &&& 0x40 ≠ 0 then none
    else if ndef.payload_length < 1 + (s &&& 0x3F) then none
    else some (nfc_ndef_rec_setup g_object_new_rec .text ndef)

/-- Embeds `nfc_ndef_rec_alloc` (nfc_ndef_rec.c lines 54-90): dispatch on
the TYPE bytes for a non-empty descriptor ("U" → URI record attempt, "T" →
Text record attempt, otherwise — or when the variant decode fails — a
generic record with RTD Unknown); the zero-size descriptor produces the
bare zero-initialized object (empty NDEF special case). -/
def nfc_ndef_rec_alloc (ndef : NfcNdefData) : NfcNdefRec :=
  if ndef.rec'.length ≠ 0 then
    let type := nfc_ndef_type ndef
    if type = nfc_ndef_rec_type_u then
      match nfc_ndef_rec_u_new_from_data ndef with
      | some uri_rec => uri_rec
      | none => nfc_ndef_rec_setup g_object_new_rec .unknown ndef
    else if type = nfc_ndef_rec_type_t then
      match nfc_ndef_rec_t_new_from_data ndef with
      | some text_rec => text_rec
      | none => nfc_ndef_rec_setup g_object_new_rec .unknown ndef
    else
      nfc_ndef_rec_setup g_object_new_rec .unknown ndef
  else
    g_object_new_rec

/-- Every branch of `nfc_ndef_rec_alloc` on a non-empty descriptor runs the
common initialization path with the same descriptor, differing only in the
RTD passed. -/
theorem alloc_eq_setup (ndef : NfcNdefData) (h : ndef.rec' ≠ []) :
    ∃ rtd, nfc_ndef_rec_alloc ndef =
      nfc_ndef_rec_setup g_object_new_rec rtd ndef := by
  have hlen : ndef.rec'.length ≠ 0 := by simpa using h
  by_cases hu : nfc_ndef_type ndef = nfc_ndef_rec_type_u
  · by_cases hp : ndef.payload_length = 0
    · exact ⟨.unknown, by
        simp [nfc_ndef_rec_alloc, hlen, hu, nfc_ndef_rec_u_new_from_data, hp,
          nfc_ndef_rec_type_u]⟩
    · exact ⟨.uri, by
        simp [nfc_ndef_rec_alloc, hlen, hu, nfc_ndef_rec_u_new_from_data, hp,
          nfc_ndef_rec_type_u]⟩
  · by_cases ht : nfc_ndef_type ndef = nfc_ndef_rec_type_t
    · rcases hpl : nfc_ndef_payload ndef with - | ⟨s, tl⟩
      · exact ⟨.unknown, by
          simp [nfc_ndef_rec_alloc, hlen, hu, ht, nfc_ndef_rec_t_new_from_data,
            hpl, nfc_ndef_rec_type_u, nfc_ndef_rec_type_t]⟩
      · by_cases h6 : s &&& 0x40 = 0
        · by_cases hL : ndef.payload_length < 1 + (s &&& 0x3F)
          · exact ⟨.unknown, by
              simp [nfc_ndef_rec_alloc, hlen, hu, ht,
                nfc_ndef_rec_t_new_from_data, hpl, h6, hL,
                nfc_ndef_rec_type_u, nfc_ndef_rec_type_t]⟩
          · exact ⟨.text, by
              simp [nfc_ndef_rec_alloc, hlen, hu, ht,
                nfc_ndef_rec_t_new_from_data, hpl, h6, hL,
                nfc_ndef_rec_type_u, nfc_ndef_rec_type_t]⟩
        · exact ⟨.unknown, by
            simp [nfc_ndef_rec_alloc, hlen, hu, ht,
              nfc_ndef_rec_t_new_from_data, hpl, h6,
              nfc_ndef_rec_type_u, nfc_ndef_rec_type_t]⟩
    · exact ⟨.unknown, by simp [nfc_ndef_rec_alloc, hlen, hu, ht]⟩

theorem alloc_raw (ndef : NfcNdefData) (h : ndef.rec' ≠ []) :
    (nfc_ndef_rec_alloc ndef).raw = ndef.rec' := by
  obtain ⟨rtd, hr⟩ := alloc_eq_setup ndef h
  rw [hr]
  rfl

/-! ### nfc_ndef_rec_new (the chain builder) -/

/-- The `while (data.size > 0 && nfc_ndef_rec_parse(&data, &ndef))` loop of
`nfc_ndef_rec_new` (nfc_ndef_rec.c lines 168-186): records whose header has
the CF bit set are skipped with a warning; all others are passed to the
factory and appended to the chain. -/
def nfc_ndef_rec_new_loop (data : List Nat) : List NfcNdefRec :=
  if data.length > 0 then
    match hp : nfc_ndef_rec_parse data with
    | some (ndef, rest) =>
      if (ndef.rec'.getD 0 0) &&& NFC_NDEF_HDR_CF ≠ 0 then
        nfc_ndef_rec_new_loop rest
      else
        nfc_ndef_rec_alloc ndef :: nfc_ndef_rec_new_loop rest
    | none => []
  else []
termination_by data.length
decreasing_by
  all_goals exact parse_rest_length data _ _ hp

/-- Embeds `nfc_ndef_rec_new` (nfc_ndef_rec.c lines 154-194), the
`parse_message` operation of the spec.  A NULL/empty return is the empty
list; a size-0 block produces the single empty record via
`nfc_ndef_rec_alloc` on the zero-filled descriptor. -/
def nfc_ndef_rec_new (block : List Nat) : List NfcNdefRec :=
  if block.length ≠ 0 then nfc_ndef_rec_new_loop block
  else [nfc_ndef_rec_alloc NfcNdefData.zero]

theorem new_loop_eq_nil (data : List Nat)
    (h : nfc_ndef_rec_parse data = none) : nfc_ndef_rec_new_loop data = [] := by
  rw [nfc_ndef_rec_new_loop.eq_def]
  split
  · split
    · next heq => rw [h] at heq; exact Option.noConfusion heq
    · rfl
  · rfl

theorem new_loop_eq_skip (data : List Nat) (ndef : NfcNdefData)
    (rest : List Nat) (h : nfc_ndef_rec_parse data = some (ndef, rest))
    (hcf : (ndef.rec'.getD 0 0) &&& NFC_NDEF_HDR_CF ≠ 0) :
    nfc_ndef_rec_new_loop data = nfc_ndef_rec_new_loop rest := by
  rw [nfc_ndef_rec_new_loop.eq_def]
  split
  · split
    · next ndef' rest' heq =>
      rw [h] at heq
      obtain ⟨rfl, rfl⟩ := Prod.mk.injEq .. ▸ Option.some.inj heq
      rw [if_pos hcf]
    · next heq => rw [h] at heq; exact Option.noConfusion heq
  · next hlen =>
    exfalso
    have := parse_rest_length data ndef rest h
    omega

theorem new_loop_eq_cons (data : List Nat) (ndef : NfcNdefData)
    (rest : List Nat) (h : nfc_ndef_rec_parse data = some (ndef, rest))
    (hcf : (ndef.rec'.getD 0 0) &&& NFC_NDEF_HDR_CF = 0) :
    nfc_ndef_rec_new_loop data =
      nfc_ndef_rec_alloc ndef :: nfc_ndef_rec_new_loop rest := by
  rw [nfc_ndef_rec_new_loop.eq_def]
  split
  · split
    · next ndef' rest' heq =>
      rw [h] at heq
      obtain ⟨rfl, rfl⟩ := Prod.mk.injEq .. ▸ Option.some.inj heq
      rw [if_neg (by simp only [ne_eq, not_not]; exact hcf)]
    · next heq => rw [h] at heq; exact Option.noConfusion heq
  · next hlen =>
    exfalso
    have := parse_rest_length data ndef rest h
    omega

/-- Single complete record: the whole input parses as one non-chunked
record, so the chain is that record alone. -/
theorem new_single (bs : List Nat) (ndef : NfcNdefData)
    (h : nfc_ndef_rec_parse bs = some (ndef, []))
    (hcf : (ndef.rec'.getD 0 0) &&& NFC_NDEF_HDR_CF = 0) :
    nfc_ndef_rec_new bs = [nfc_ndef_rec_alloc ndef] := by
  have hlen : bs.length ≠ 0 := by
    have := parse_rest_length bs ndef [] h
    simp only [List.length_nil] at this
    omega
  unfold nfc_ndef_rec_new
  rw [if_pos hlen, new_loop_eq_cons bs ndef [] h hcf, new_loop_eq_nil [] rfl]

/-! ### TLV extraction -/

/-- Modelled from the spec: `nfc_tlv_next` from the missing `nfc_tlv.c`.
Wire rules (spec 4.3): a 0x00 type byte is a NULL TLV with no length byte
and is skipped; 0xFE terminates extraction; any other type byte is followed
by a length byte, 0xFF meaning the following two bytes big-endian carry the
real length, then `length` bytes of value.  Extraction also stops when the
stream is exhausted, including when a declared length or length field
overruns the remaining bytes.  Returns `some (type, value, rest)` or `none`
(the C function's 0 return). -/
def nfc_tlv_read (t : Nat) (after_t : List Nat) :
    Option (Nat × List Nat × List Nat) :=
  match after_t with
  | [] => none
  | len :: after_len =>
    if len = 0xFF then
      match after_len with
      | a :: b :: after_ext =>
        if (a <<< 8) ||| b ≤ after_ext.length then
          some (t, after_ext.take ((a <<< 8) ||| b),
            after_ext.drop ((a <<< 8) ||| b))
        else none
      | _ => none
    else
      if len ≤ after_len.length then
        some (t, after_len.take len, after_len.drop len)
      else none

def nfc_tlv_next : List Nat → Option (Nat × List Nat × List Nat)
  | [] => none
  | t :: after_t =>
    if t = 0xFE then none
    else if t = 0 then nfc_tlv_next after_t
    else nfc_tlv_read t after_t

theorem tlv_read_rest_length (t t' : Nat) (after_t value rest : List Nat)
    (h : nfc_tlv_read t after_t = some (t', value, rest)) :
    rest.length ≤ after_t.length := by
  cases after_t with
  | nil => exact Option.noConfusion h
  | cons len after_len =>
    simp only [nfc_tlv_read] at h
    split at h
    · split at h
      · split at h
        · simp only [Option.some.injEq, Prod.mk.injEq] at h
          obtain ⟨-, -, hrest⟩ := h
          subst hrest
          simp only [List.length_cons, List.length_drop]
          omega
        · exact Option.noConfusion h
      · exact Option.noConfusion h
    · split at h
      · simp only [Option.some.injEq, Prod.mk.injEq] at h
        obtain ⟨-, -, hrest⟩ := h
        subst hrest
        simp only [List.length_cons, List.length_drop]
        omega
      · exact Option.noConfusion h

theorem tlv_next_rest_length (buf : List Nat) (t : Nat) (value rest : List Nat)
    (h : nfc_tlv_next buf = some (t, value, rest)) :
    rest.length < buf.length := by
  induction buf generalizing t value rest with
  | nil => exact Option.noConfusion h
  | cons b after_t ih =>
    rw [nfc_tlv_next] at h
    split at h
    · exact Option.noConfusion h
    · split at h
      · have := ih _ _ _ h
        simp only [List.length_cons]
        omega
      · have := tlv_read_rest_length b t after_t value rest h
        simp only [List.length_cons]
        omega

/-- The sequence of `(type, value)` pairs the TLV walker yields on a
stream, in order. -/
def nfc_tlv_blocks (buf : List Nat) : List (Nat × List Nat) :=
  match hp : nfc_tlv_next buf with
  | none => []
  | some (t, value, rest) => (t, value) :: nfc_tlv_blocks rest
termination_by buf.length
decreasing_by
  exact tlv_next_rest_length buf _ _ _ hp

/-- Embeds `nfc_ndef_rec_new_tlv` (nfc_ndef_rec.c lines 196-227): walk the
TLV stream, run the chain parser on every `TLV_NDEF_MESSAGE` value and
splice the resulting chains together in TLV order (the C code appends each
non-NULL chain at `last` and then advances `last` to the chain's tail). -/
def nfc_ndef_rec_new_tlv (tlv : List Nat) : List NfcNdefRec :=
  match hp : nfc_tlv_next tlv with
  | none => []
  | some (type, value, rest) =>
    (if type = TLV_NDEF_MESSAGE then nfc_ndef_rec_new value else [])
      ++ nfc_ndef_rec_new_tlv rest
termination_by tlv.length
decreasing_by
  exact tlv_next_rest_length tlv _ _ _ hp

theorem tlv_blocks_eq_nil (buf : List Nat) (h : nfc_tlv_next buf = none) :
    nfc_tlv_blocks buf = [] := by
  rw [nfc_tlv_blocks.eq_def]
  split
  · rfl
  · next t value rest heq => rw [h] at heq; exact Option.noConfusion heq

theorem tlv_blocks_eq_cons (buf : List Nat) (t : Nat) (value rest : List Nat)
    (h : nfc_tlv_next buf = some (t, value, rest)) :
    nfc_tlv_blocks buf = (t, value) :: nfc_tlv_blocks rest := by
  rw [nfc_tlv_blocks.eq_def]
  split
  · next heq => rw [h] at heq; exact Option.noConfusion heq
  · next t' value' rest' heq =>
    rw [h] at heq
    obtain ⟨rfl, rfl, rfl⟩ :=
      Prod.mk.injEq .. ▸ Prod.mk.injEq .. ▸ Option.some.inj heq
    rfl

theorem new_tlv_eq_nil (buf : List Nat) (h : nfc_tlv_next buf = none) :
    nfc_ndef_rec_new_tlv buf = [] := by
  rw [nfc_ndef_rec_new_tlv.eq_def]
  split
  · rfl
  · next t value rest heq => rw [h] at heq; exact Option.noConfusion heq

theorem new_tlv_eq_cons (buf : List Nat) (t : Nat) (value rest : List Nat)
    (h : nfc_tlv_next buf = some (t, value, rest)) :
    nfc_ndef_rec_new_tlv buf =
      (if t = TLV_NDEF_MESSAGE then nfc_ndef_rec_new value else [])
        ++ nfc_ndef_rec_new_tlv rest := by
  rw [nfc_ndef_rec_new_tlv.eq_def]
  split
  · next heq => rw [h] at heq; exact Option.noConfusion heq
  · next t' value' rest' heq =>
    rw [h] at heq
    obtain ⟨rfl, rfl, rfl⟩ :=
      Prod.mk.injEq .. ▸ Prod.mk.injEq .. ▸ Option.some.inj heq
    rfl

/-- The chain returned for a TLV stream is the concatenation, in TLV order,
of the chains parsed from the values of the NDEF-message blocks. -/
theorem new_tlv_eq_flatten_aux (n : Nat) :
    ∀ tlv : List Nat, tlv.length ≤ n →
      nfc_ndef_rec_new_tlv tlv =
        (((nfc_tlv_blocks tlv).filter
            (fun b => b.1 == TLV_NDEF_MESSAGE)).map
          (fun b => nfc_ndef_rec_new b.2)).flatten := by
  induction n with
  | zero =>
    intro tlv hlen
    have htlv : tlv = [] := by
      cases tlv
      · rfl
      · simp at hlen
    subst htlv
    rw [new_tlv_eq_nil [] rfl, tlv_blocks_eq_nil [] rfl]
    rfl
  | succ n ih =>
    intro tlv hlen
    cases hp : nfc_tlv_next tlv with
    | none =>
      rw [new_tlv_eq_nil tlv hp, tlv_blocks_eq_nil tlv hp]
      rfl
    | some v =>
      obtain ⟨t, value, rest⟩ := v
      have hrest : rest.length ≤ n := by
        have := tlv_next_rest_length tlv t value rest hp
        omega
      rw [new_tlv_eq_cons tlv t value rest hp,
        tlv_blocks_eq_cons tlv t value rest hp, ih rest hrest,
        List.filter_cons]
      by_cases ht : t = TLV_NDEF_MESSAGE
      · simp only [ht, if_pos, beq_self_eq_true, if_true, List.map_cons,
          List.flatten_cons]
      · have hbt : ((t, value).1 == TLV_NDEF_MESSAGE) = false := by
          simpa using ht
        rw [hbt]
        simp only [Bool.false_eq_true, if_false, if_neg ht, List.nil_append]

/-! ### Big-endian length encoding -/

theorem lor_eq_add_of_lt (k x b : Nat) (hb : b < 2 ^ k) :
    (x * 2 ^ k) ||| b = x * 2 ^ k + b := by
  rw [Nat.mul_comm]
  exact (Nat.mul_add_lt_is_or hb x).symm

/-- Reassembling the four big-endian `(guint8)` casts of a 32-bit value by
the parser's shift-and-or recovers the value. -/
theorem be_recompose (p : Nat) (hp : p < 4294967296) :
    (((p >>> 24) % 256) <<< 24) ||| (((p >>> 16) % 256) <<< 16) |||
      (((p >>> 8) % 256) <<< 8) ||| (p % 256) = p := by
  rw [Nat.shiftLeft_eq, Nat.shiftLeft_eq, Nat.shiftLeft_eq]
  have hB : (p >>> 16) % 256 * 2 ^ 16 < 2 ^ 24 := by
    calc (p >>> 16) % 256 * 2 ^ 16
        < 256 * 2 ^ 16 :=
          mul_lt_mul_of_pos_right (Nat.mod_lt _ (by norm_num)) (by norm_num)
      _ = 2 ^ 24 := by norm_num
  rw [lor_eq_add_of_lt 24 ((p >>> 24) % 256) ((p >>> 16) % 256 * 2 ^ 16) hB]
  have e1 : (p >>> 24) % 256 * 2 ^ 24 + (p >>> 16) % 256 * 2 ^ 16
      = ((p >>> 24) % 256 * 2 ^ 8 + (p >>> 16) % 256) * 2 ^ 16 := by ring
  rw [e1]
  have hC : (p >>> 8) % 256 * 2 ^ 8 < 2 ^ 16 := by
    calc (p >>> 8) % 256 * 2 ^ 8
        < 256 * 2 ^ 8 :=
          mul_lt_mul_of_pos_right (Nat.mod_lt _ (by norm_num)) (by norm_num)
      _ = 2 ^ 16 := by norm_num
  rw [lor_eq_add_of_lt 16 _ ((p >>> 8) % 256 * 2 ^ 8) hC]
  have e2 : ((p >>> 24) % 256 * 2 ^ 8 + (p >>> 16) % 256) * 2 ^ 16
        + (p >>> 8) % 256 * 2 ^ 8
      = (((p >>> 24) % 256 * 2 ^ 8 + (p >>> 16) % 256) * 2 ^ 8
          + (p >>> 8) % 256) * 2 ^ 8 := by ring
  rw [e2]
  have hD : p % 256 < 2 ^ 8 := by
    have := Nat.mod_lt p (show 0 < 256 by norm_num)
    norm_num
    omega
  rw [lor_eq_add_of_lt 8 _ (p % 256) hD]
  rw [Nat.shiftRight_eq_div_pow, Nat.shiftRight_eq_div_pow,
    Nat.shiftRight_eq_div_pow]
  norm_num
  omega

/-- Successful short-record parse of a block with SR set and IL clear. -/
theorem parse_sr (hdr tl pl : Nat) (tail0 : List Nat)
    (hsr : hdr &&& NFC_NDEF_HDR_SR ≠ 0) (hil : hdr &&& NFC_NDEF_HDR_IL = 0)
    (hpl : pl < 0x80000000) (htot : tl + pl ≤ tail0.length) :
    nfc_ndef_rec_parse (hdr :: tl :: pl :: tail0) =
      some ({ rec' := (hdr :: tl :: pl :: tail0).take (3 + tl + pl),
              type_offset := 3, type_length := tl, id_length := 0,
              payload_length := pl },
            (hdr :: tl :: pl :: tail0).drop (3 + tl + pl)) := by
  have hsr' : (hdr &&& NFC_NDEF_HDR_SR ≠ 0) = True := eq_true hsr
  have hil' : (hdr &&& NFC_NDEF_HDR_IL ≠ 0) = False := by simp [hil]
  simp only [nfc_ndef_rec_parse, List.getD_cons_zero, List.getD_cons_succ,
    List.length_cons, hsr', hil', if_true, if_false]
  rw [if_neg (by omega), if_pos ⟨hpl, by omega⟩]
  have harith : 2 + tl + 1 + pl + 0 = 3 + tl + pl := by ring
  rw [harith]

/-- Successful long-form parse of a block with SR and IL clear. -/
theorem parse_long (hdr tl p0 p1 p2 p3 : Nat) (tail0 : List Nat)
    (hsr : hdr &&& NFC_NDEF_HDR_SR = 0) (hil : hdr &&& NFC_NDEF_HDR_IL = 0)
    (hpl : (p0 <<< 24) ||| (p1 <<< 16) ||| (p2 <<< 8) ||| p3 < 0x80000000)
    (htot : tl + ((p0 <<< 24) ||| (p1 <<< 16) ||| (p2 <<< 8) ||| p3)
      ≤ tail0.length) :
    nfc_ndef_rec_parse (hdr :: tl :: p0 :: p1 :: p2 :: p3 :: tail0) =
      some ({ rec' := (hdr :: tl :: p0 :: p1 :: p2 :: p3 :: tail0).take
                (6 + tl + ((p0 <<< 24) ||| (p1 <<< 16) ||| (p2 <<< 8) ||| p3)),
              type_offset := 6, type_length := tl, id_length := 0,
              payload_length :=
                (p0 <<< 24) ||| (p1 <<< 16) ||| (p2 <<< 8) ||| p3 },
            (hdr :: tl :: p0 :: p1 :: p2 :: p3 :: tail0).drop
              (6 + tl + ((p0 <<< 24) ||| (p1 <<< 16) ||| (p2 <<< 8) ||| p3)))
      := by
  have hsr' : (hdr &&& NFC_NDEF_HDR_SR ≠ 0) = False := by simp [hsr]
  have hil' : (hdr &&& NFC_NDEF_HDR_IL ≠ 0) = False := by simp [hil]
  simp only [nfc_ndef_rec_parse, List.getD_cons_zero, List.getD_cons_succ,
    List.length_cons, hsr', hil', if_true, if_false]
  rw [if_neg (by omega), if_pos ⟨hpl, by omega⟩]
  have harith : 2 + tl + 4 + ((p0 <<< 24) ||| (p1 <<< 16) ||| (p2 <<< 8) ||| p3)
      + 0 = 6 + tl + ((p0 <<< 24) ||| (p1 <<< 16) ||| (p2 <<< 8) ||| p3) := by
    ring
  rw [harith]

/-! ### nfc_ndef_rec_new_well_known (the synthesizer) -/

/-- Embeds `nfc_ndef_rec_new_well_known` (nfc_ndef_rec.c lines 285-336).
The header byte is `MB|ME|TNF_WellKnown`, plus `SR` when the payload fits a
single length byte; `(guint8)type->size` truncates the TYPE LENGTH byte to
`type.size % 256`; the four long-form payload-length bytes are the
big-endian `(guint8)` casts of `payload->size`.  The assembled buffer is
`header bytes ++ type ++ payload`, and the record is produced by the normal
initialization path on a descriptor whose `type_offset` is the header size
(`buf->len` at the point TYPE is appended). -/
def nfc_ndef_rec_new_well_known (rtd : NFC_NDEF_RTD) (type payload : List Nat) :
    NfcNdefRec :=
  let hdr := NFC_NDEF_HDR_MB ||| NFC_NDEF_HDR_ME ||| NFC_NDEF_TNF_WELL_KNOWN
  let type_len := type.length % 256
  let buf :=
    if payload.length > 0xff then
      [hdr, type_len,
       (payload.length >>> 24) % 256, (payload.length >>> 16) % 256,
       (payload.length >>> 8) % 256, payload.length % 256]
    else
      [hdr ||| NFC_NDEF_HDR_SR, type_len, payload.length % 256]
  let ndef : NfcNdefData :=
    { rec' := buf ++ type ++ payload, type_offset := buf.length,
      type_length := type.length, id_length := 0,
      payload_length := payload.length }
  nfc_ndef_rec_setup g_object_new_rec rtd ndef

/-- The header bytes assembled by the synthesizer (the `buf` contents before
TYPE is appended). -/
def wkBuf (type payload : List Nat) : List Nat :=
  if payload.length > 0xff then
    [NFC_NDEF_HDR_MB ||| NFC_NDEF_HDR_ME ||| NFC_NDEF_TNF_WELL_KNOWN,
     type.length % 256,
     (payload.length >>> 24) % 256, (payload.length >>> 16) % 256,
     (payload.length >>> 8) % 256, payload.length % 256]
  else
    [NFC_NDEF_HDR_MB ||| NFC_NDEF_HDR_ME ||| NFC_NDEF_TNF_WELL_KNOWN
       ||| NFC_NDEF_HDR_SR,
     type.length % 256, payload.length % 256]

/-- The descriptor the synthesizer passes to the initialization path. -/
def wkNdef (type payload : List Nat) : NfcNdefData :=
  { rec' := wkBuf type payload ++ type ++ payload,
    type_offset := (wkBuf type payload).length,
    type_length := type.length, id_length := 0,
    payload_length := payload.length }

theorem wk_eq (rtd : NFC_NDEF_RTD) (type payload : List Nat) :
    nfc_ndef_rec_new_well_known rtd type payload =
      nfc_ndef_rec_setup g_object_new_rec rtd (wkNdef type payload) := by
  unfold nfc_ndef_rec_new_well_known wkNdef wkBuf
  split <;> rfl

/-- Parsing the synthesizer's wire bytes succeeds, consumes everything, and
reproduces the synthesizer's own descriptor. -/
theorem wk_parse (type payload : List Nat) (ht : type.length ≤ 255)
    (hp : payload.length < 0x80000000) :
    nfc_ndef_rec_parse (wkNdef type payload).rec' =
      some (wkNdef type payload, []) := by
  have hmt : type.length % 256 = type.length := Nat.mod_eq_of_lt (by omega)
  by_cases hps : payload.length > 0xff
  · -- Long form: the four big-endian casts are read back by the parser.
    have hbuf : wkBuf type payload =
        [0xC1, type.length, (payload.length >>> 24) % 256,
         (payload.length >>> 16) % 256, (payload.length >>> 8) % 256,
         payload.length % 256] := by
      rw [wkBuf, if_pos hps, hmt,
        show NFC_NDEF_HDR_MB ||| NFC_NDEF_HDR_ME ||| NFC_NDEF_TNF_WELL_KNOWN
          = 0xC1 from by decide]
    have hbe : ((((payload.length >>> 24) % 256) <<< 24) |||
        (((payload.length >>> 16) % 256) <<< 16) |||
        (((payload.length >>> 8) % 256) <<< 8) ||| (payload.length % 256))
        = payload.length := be_recompose payload.length (by omega)
    have hrec : (wkNdef type payload).rec' =
        0xC1 :: type.length :: (payload.length >>> 24) % 256 ::
          (payload.length >>> 16) % 256 :: (payload.length >>> 8) % 256 ::
          payload.length % 256 :: (type ++ payload) := by
      show wkBuf type payload ++ type ++ payload = _
      rw [hbuf]
      rfl
    rw [hrec]
    rw [parse_long 0xC1 type.length ((payload.length >>> 24) % 256)
      ((payload.length >>> 16) % 256) ((payload.length >>> 8) % 256)
      (payload.length % 256) (type ++ payload) (by decide) (by decide)
      (by rw [hbe]; exact hp)
      (by rw [hbe, List.length_append])]
    rw [hbe]
    have hlen : (0xC1 :: type.length :: (payload.length >>> 24) % 256 ::
        (payload.length >>> 16) % 256 :: (payload.length >>> 8) % 256 ::
        payload.length % 256 :: (type ++ payload)).length
        = 6 + type.length + payload.length := by
      simp only [List.length_cons, List.length_append]
      omega
    rw [List.take_of_length_le (by omega), List.drop_eq_nil_of_le (by omega)]
    have : wkNdef type payload =
        { rec' := 0xC1 :: type.length :: (payload.length >>> 24) % 256 ::
            (payload.length >>> 16) % 256 :: (payload.length >>> 8) % 256 ::
            payload.length % 256 :: (type ++ payload),
          type_offset := 6, type_length := type.length, id_length := 0,
          payload_length := payload.length } := by
      rw [wkNdef, hbuf]
      rfl
    rw [this]
  · -- Short form.
    have hmp : payload.length % 256 = payload.length :=
      Nat.mod_eq_of_lt (by omega)
    have hbuf : wkBuf type payload = [0xD1, type.length, payload.length] := by
      rw [wkBuf, if_neg hps, hmt, hmp,
        show NFC_NDEF_HDR_MB ||| NFC_NDEF_HDR_ME ||| NFC_NDEF_TNF_WELL_KNOWN
          ||| NFC_NDEF_HDR_SR = 0xD1 from by decide]
    have hrec : (wkNdef type payload).rec' =
        0xD1 :: type.length :: payload.length :: (type ++ payload) := by
      show wkBuf type payload ++ type ++ payload = _
      rw [hbuf]
      rfl
    rw [hrec]
    rw [parse_sr 0xD1 type.length payload.length (type ++ payload) (by decide)
      (by decide) (by omega) (by rw [List.length_append])]
    have hlen : (0xD1 :: type.length :: payload.length ::
        (type ++ payload)).length = 3 + type.length + payload.length := by
      simp only [List.length_cons, List.length_append]
      omega
    rw [List.take_of_length_le (by omega), List.drop_eq_nil_of_le (by omega)]
    have : wkNdef type payload =
        { rec' := 0xD1 :: type.length :: payload.length :: (type ++ payload),
          type_offset := 3, type_length := type.length, id_length := 0,
          payload_length := payload.length } := by
      rw [wkNdef, hbuf]
      rfl
    rw [this]

theorem wkNdef_head (type payload : List Nat) :
    (wkNdef type payload).rec'.getD 0 0
      = (if payload.length > 0xff then 0xC1 else 0xD1) := by
  show (wkBuf type payload ++ type ++ payload).getD 0 0 = _
  rw [wkBuf]
  split
  · exact (by decide :
      ((NFC_NDEF_HDR_MB ||| NFC_NDEF_HDR_ME ||| NFC_NDEF_TNF_WELL_KNOWN)
        : Nat) = 0xC1)
  · exact (by decide :
      ((NFC_NDEF_HDR_MB ||| NFC_NDEF_HDR_ME ||| NFC_NDEF_TNF_WELL_KNOWN
        ||| NFC_NDEF_HDR_SR) : Nat) = 0xD1)

theorem setup_tnf (s : NfcNdefRec) (rtd : NFC_NDEF_RTD) (ndef : NfcNdefData) :
    (nfc_ndef_rec_setup s rtd ndef).tnf =
      if (ndef.rec'.getD 0 0) &&& NFC_NDEF_HDR_TNF_MASK < NFC_NDEF_TNF_MAX
      then (ndef.rec'.getD 0 0) &&& NFC_NDEF_HDR_TNF_MASK else s.tnf := rfl

theorem setup_flags (s : NfcNdefRec) (rtd : NFC_NDEF_RTD)
    (ndef : NfcNdefData) :
    (nfc_ndef_rec_setup s rtd ndef).flags = s.flags
      ||| (if (ndef.rec'.getD 0 0) &&& NFC_NDEF_HDR_MB ≠ 0
        then NFC_NDEF_REC_FLAG_FIRST else 0)
      ||| (if (ndef.rec'.getD 0 0) &&& NFC_NDEF_HDR_ME ≠ 0
        then NFC_NDEF_REC_FLAG_LAST else 0) := rfl

theorem setup_rtd (s : NfcNdefRec) (rtd : NFC_NDEF_RTD) (ndef : NfcNdefData) :
    (nfc_ndef_rec_setup s rtd ndef).rtd = rtd := rfl

theorem setup_raw (s : NfcNdefRec) (rtd : NFC_NDEF_RTD) (ndef : NfcNdefData) :
    (nfc_ndef_rec_setup s rtd ndef).raw = ndef.rec' := rfl

theorem setup_type (s : NfcNdefRec) (rtd : NFC_NDEF_RTD) (ndef : NfcNdefData) :
    (nfc_ndef_rec_setup s rtd ndef).type =
      { bytes := some ndef.type_offset, size := ndef.type_length } := rfl

theorem setup_id (s : NfcNdefRec) (rtd : NFC_NDEF_RTD) (ndef : NfcNdefData) :
    (nfc_ndef_rec_setup s rtd ndef).id =
      if ndef.id_length > 0 then
        { bytes := some (ndef.type_offset + ndef.type_length),
          size := ndef.id_length }
      else s.id := rfl

theorem setup_payload (s : NfcNdefRec) (rtd : NFC_NDEF_RTD)
    (ndef : NfcNdefData) :
    (nfc_ndef_rec_setup s rtd ndef).payload =
      if ndef.payload_length ≠ 0 then
        { bytes := some (ndef.type_offset + ndef.type_length
            + ndef.id_length),
          size := ndef.payload_length }
      else s.payload := rfl

theorem wkNdef_fields (type payload : List Nat) :
    (wkNdef type payload).type_offset = (wkBuf type payload).length
      ∧ (wkNdef type payload).type_length = type.length
      ∧ (wkNdef type payload).id_length = 0
      ∧ (wkNdef type payload).payload_length = payload.length
      ∧ (wkNdef type payload).rec' = wkBuf type payload ++ type ++ payload :=
  ⟨rfl, rfl, rfl, rfl, rfl⟩

/-- The common header fields the initialization path gives the synthesized
record: TNF WellKnown, both chain flags, NULL id. -/
theorem wk_fields (rtd : NFC_NDEF_RTD) (type payload : List Nat) :
    (nfc_ndef_rec_setup g_object_new_rec rtd (wkNdef type payload)).tnf
        = NFC_NDEF_TNF_WELL_KNOWN
      ∧ (nfc_ndef_rec_setup g_object_new_rec rtd (wkNdef type payload)).flags
        = (NFC_NDEF_REC_FLAG_FIRST ||| NFC_NDEF_REC_FLAG_LAST)
      ∧ (nfc_ndef_rec_setup g_object_new_rec rtd (wkNdef type payload)).id
        = GUtilView.null := by
  have hhd := wkNdef_head type payload
  refine ⟨?_, ?_, ?_⟩
  · rw [setup_tnf, hhd]
    split <;> decide
  · rw [setup_flags, hhd]
    split <;> decide
  · rw [setup_id]
    rfl

/-- The TYPE and PAYLOAD views of the synthesized record denote exactly the
caller's type and payload bytes. -/
theorem wk_views (rtd : NFC_NDEF_RTD) (type payload : List Nat) :
    viewBytes (nfc_ndef_rec_setup g_object_new_rec rtd
        (wkNdef type payload)).raw
      (nfc_ndef_rec_setup g_object_new_rec rtd (wkNdef type payload)).type
      = type
    ∧ viewBytes (nfc_ndef_rec_setup g_object_new_rec rtd
        (wkNdef type payload)).raw
      (nfc_ndef_rec_setup g_object_new_rec rtd (wkNdef type payload)).payload
      = payload := by
  constructor
  · rw [setup_raw, setup_type]
    show ((wkBuf type payload ++ type ++ payload).drop
      (wkBuf type payload).length).take type.length = type
    rw [List.append_assoc, List.drop_left, List.take_left]
  · rw [setup_raw, setup_payload]
    by_cases hpz : payload.length = 0
    · rw [if_neg (by simp [wkNdef, hpz])]
      have hnil : payload = [] := List.eq_nil_of_length_eq_zero hpz
      rw [hnil]
      rfl
    · rw [if_pos (by simp [wkNdef, hpz])]
      show ((wkBuf type payload ++ type ++ payload).drop
        ((wkBuf type payload).length + type.length + 0)).take payload.length
        = payload
      rw [Nat.add_zero, ← List.length_append, List.drop_left,
        List.take_length]

/-- Parsing the synthesizer's wire bytes yields exactly one record, built by
the factory from the synthesizer's own descriptor. -/
theorem wk_roundtrip (rtd : NFC_NDEF_RTD) (type payload : List Nat)
    (ht : type.length ≤ 255) (hp : payload.length < 0x80000000) :
    ∃ rtd',
      nfc_ndef_rec_new (nfc_ndef_rec_new_well_known rtd type payload).raw
        = [nfc_ndef_rec_setup g_object_new_rec rtd' (wkNdef type payload)] := by
  rw [wk_eq, setup_raw]
  have hparse := wk_parse type payload ht hp
  have hcf : ((wkNdef type payload).rec'.getD 0 0) &&& NFC_NDEF_HDR_CF = 0 := by
    rw [wkNdef_head]
    split <;> decide
  rw [new_single _ _ hparse hcf]
  obtain ⟨rtd', h⟩ := alloc_eq_setup _ (parse_rec_ne_nil _ _ _ hparse)
  exact ⟨rtd', by rw [h]⟩

/-! ### Helpers for the claim theorems -/

/-- Bounds checker for a whole `nfc_ndef_rec_new` run: every record parse
the chain loop performs must touch only in-bounds indices of its remaining
block (which is a suffix of the original input, so in-bounds there implies
in-bounds in the original). -/
def nfc_ndef_rec_new_inbounds (data : List Nat) : Bool :=
  if data.length > 0 then
    nfc_ndef_rec_parse_inbounds data &&
      match hp : nfc_ndef_rec_parse data with
      | some (_, rest) => nfc_ndef_rec_new_inbounds rest
      | none => true
  else true
termination_by data.length
decreasing_by
  exact parse_rest_length data _ _ hp

theorem new_inbounds_of_parse_none (data : List Nat)
    (hlen : data.length > 0) (h : nfc_ndef_rec_parse data = none) :
    nfc_ndef_rec_new_inbounds data = nfc_ndef_rec_parse_inbounds data := by
  rw [nfc_ndef_rec_new_inbounds.eq_def, if_pos hlen]
  split
  · next heq => rw [h] at heq; exact Option.noConfusion heq
  · exact Bool.and_true _

/-- Every record the chain loop emits has the CF bit clear in the first
byte of its raw bytes. -/
theorem loop_cf_clear_aux : ∀ (n : Nat) (data : List Nat), data.length ≤ n →
    ∀ r ∈ nfc_ndef_rec_new_loop data,
      (r.raw.getD 0 0) &&& NFC_NDEF_HDR_CF = 0 := by
  intro n
  induction n with
  | zero =>
    intro data hlen r hr
    have hdata : data = [] := by
      cases data
      · rfl
      · simp at hlen
    subst hdata
    rw [new_loop_eq_nil [] (by decide)] at hr
    exact absurd hr (List.not_mem_nil r)
  | succ n ih =>
    intro data hlen r hr
    cases hp : nfc_ndef_rec_parse data with
    | none =>
      rw [new_loop_eq_nil data hp] at hr
      exact absurd hr (List.not_mem_nil r)
    | some v =>
      obtain ⟨ndef, rest⟩ := v
      have hlt := parse_rest_length data ndef rest hp
      by_cases hcf : (ndef.rec'.getD 0 0) &&& NFC_NDEF_HDR_CF ≠ 0
      · rw [new_loop_eq_skip data ndef rest hp hcf] at hr
        exact ih rest (by omega) r hr
      · have hcf' : (ndef.rec'.getD 0 0) &&& NFC_NDEF_HDR_CF = 0 :=
          not_not.mp hcf
        rw [new_loop_eq_cons data ndef rest hp hcf'] at hr
        rcases List.mem_cons.mp hr with rfl | hr'
        · rw [alloc_raw ndef (parse_rec_ne_nil data ndef rest hp)]
          exact hcf'
        · exact ih rest (by omega) r hr'

/-- `k` iterations of the record parse: the descriptors produced and the
bytes left over. -/
def parseK : Nat → List Nat → Option (List NfcNdefData × List Nat)
  | 0, bs => some ([], bs)
  | k + 1, bs =>
    match nfc_ndef_rec_parse bs with
    | some (ndef, rest) =>
      match parseK k rest with
      | some (ds, tail) => some (ndef :: ds, tail)
      | none => none
    | none => none

/-- When the input splits into `k` successfully-parsed records followed by
bytes the parse rejects, the loop builds exactly the chain of those `k`
records (chunked ones dropped). -/
theorem loop_of_parseK : ∀ (k : Nat) (bs : List Nat) (ds : List NfcNdefData)
    (tail : List Nat), parseK k bs = some (ds, tail) →
    nfc_ndef_rec_parse tail = none →
    nfc_ndef_rec_new_loop bs =
      (ds.filter
        (fun d => (d.rec'.getD 0 0) &&& NFC_NDEF_HDR_CF == 0)).map
        nfc_ndef_rec_alloc := by
  intro k
  induction k with
  | zero =>
    intro bs ds tail h htail
    simp only [parseK, Option.some.injEq, Prod.mk.injEq] at h
    obtain ⟨hds, hbs⟩ := h
    subst hds
    subst hbs
    rw [new_loop_eq_nil _ htail]
    rfl
  | succ k ih =>
    intro bs ds tail h htail
    simp only [parseK] at h
    cases hp : nfc_ndef_rec_parse bs with
    | none => simp only [hp] at h; exact Option.noConfusion h
    | some v =>
      obtain ⟨ndef, rest⟩ := v
      simp only [hp] at h
      cases hk : parseK k rest with
      | none => simp only [hk] at h; exact Option.noConfusion h
      | some w =>
        obtain ⟨ds', tail'⟩ := w
        simp only [hk, Option.some.injEq, Prod.mk.injEq] at h
        obtain ⟨hds, htl⟩ := h
        subst hds
        subst htl
        have hloop := ih rest ds' _ hk htail
        by_cases hcf : (ndef.rec'.getD 0 0) &&& NFC_NDEF_HDR_CF = 0
        · rw [new_loop_eq_cons bs ndef rest hp hcf, hloop, List.filter_cons]
          have : ((ndef.rec'.getD 0 0) &&& NFC_NDEF_HDR_CF == 0) = true := by
            simpa using hcf
          rw [this, if_pos rfl, List.map_cons]
        · rw [new_loop_eq_skip bs ndef rest hp hcf, hloop, List.filter_cons]
          have : ((ndef.rec'.getD 0 0) &&& NFC_NDEF_HDR_CF == 0) = false := by
            simpa using hcf
          rw [this]
          simp only [Bool.false_eq_true, if_false]

/-- A parse that succeeds on a header byte without the IL bit leaves the
descriptor's `id_length` at its zeroed value. -/
theorem parse_id_of_il_clear (bs : List Nat) (ndef : NfcNdefData)
    (rest : List Nat) (h : nfc_ndef_rec_parse bs = some (ndef, rest))
    (hil : (bs.getD 0 0) &&& NFC_NDEF_HDR_IL = 0) : ndef.id_length = 0 := by
  simp only [nfc_ndef_rec_parse] at h
  split at h
  · exact Option.noConfusion h
  · split at h
    · split at h
      · next hil' => exact absurd hil hil'
      · split at h
        · simp only [Option.some.injEq, Prod.mk.injEq] at h
          obtain ⟨hd, -⟩ := h
          subst hd
          rfl
        · exact Option.noConfusion h
    · split at h
      · next hil' => exact absurd hil hil'
      · split at h
        · simp only [Option.some.injEq, Prod.mk.injEq] at h
          obtain ⟨hd, -⟩ := h
          subst hd
          rfl
        · exact Option.noConfusion h

/-! ## Claim theorems -/

/-- **C1** (code-bug evidence): the spec's bounds-safety claim fails.  On
the three-byte input `[0x00, 0x00, 0x00]` — header byte with SR clear — the
parser reads the four payload-length bytes at indices 2..5 with only three
bytes present, so the accesses at indices 3..5 are out of bounds: both the
single-parse bounds checker and the `parse_message`-level bounds checker
report the out-of-bounds branch taken on an input of length 3 ≤ 1024. -/
theorem C1_bounds_code_bug :
    nfc_ndef_rec_parse_inbounds [0x00, 0x00, 0x00] = false
      ∧ nfc_ndef_rec_new_inbounds [0x00, 0x00, 0x00] = false
      ∧ [0x00, 0x00, 0x00].length ≤ 1024 := by
  refine ⟨by decide, ?_, by decide⟩
  rw [new_inbounds_of_parse_none [0x00, 0x00, 0x00] (by decide) (by decide)]
  decide

/-- **C2** (counterexample): parsing the single record `17 00 00`, whose
header carries TNF field value 7, constructs a record with `tnf = 0`
(Empty), not `5` (Unknown) as the claim states. -/
theorem C2_tnf7_counterexample :
    (nfc_ndef_rec_new [0x17, 0x00, 0x00]).map (fun r => r.tnf) = [0]
      ∧ (0 : Nat) ≠ NFC_NDEF_TNF_UNKNOWN := by
  constructor
  · rw [new_single [0x17, 0x00, 0x00]
      { rec' := [0x17, 0x00, 0x00], type_offset := 3, type_length := 0,
        id_length := 0, payload_length := 0 } (by decide) (by decide)]
    decide
  · decide

/-- **C2** (amended): for every parsed record whose header byte carries TNF
field value 7, the constructed record's tnf equals Empty (0): the clamp
branch skips the assignment and the zero-initialized default survives,
rather than Unknown (5) being written. -/
theorem C2_tnf7_amended (bs : List Nat) (ndef : NfcNdefData) (rest : List Nat)
    (h : nfc_ndef_rec_parse bs = some (ndef, rest))
    (h7 : (ndef.rec'.getD 0 0) &&& NFC_NDEF_HDR_TNF_MASK = 7) :
    (nfc_ndef_rec_alloc ndef).tnf = NFC_NDEF_TNF_EMPTY := by
  obtain ⟨rtd', hr⟩ := alloc_eq_setup ndef (parse_rec_ne_nil bs ndef rest h)
  rw [hr, setup_tnf, h7]
  rfl

theorem C2_tnf7_witness :
    (nfc_ndef_rec_alloc
      { rec' := [0x17, 0x00, 0x00], type_offset := 3, type_length := 0,
        id_length := 0, payload_length := 0 }).tnf = NFC_NDEF_TNF_EMPTY :=
  C2_tnf7_amended [0x17, 0x00, 0x00]
    { rec' := [0x17, 0x00, 0x00], type_offset := 3, type_length := 0,
      id_length := 0, payload_length := 0 } [] (by decide) (by decide)

/-- **C3** (counterexample): round-tripping is not identity on `rtd`.
Building a well-known record with rtd SmartPoster and type "x" and parsing
its raw bytes yields a record with rtd Unknown (dispatch on the type bytes
reassigns rtd), which differs from the built record's rtd. -/
theorem C3_roundtrip_counterexample :
    (nfc_ndef_rec_new_well_known NFC_NDEF_RTD.smart_poster [0x78] []).rtd
        = NFC_NDEF_RTD.smart_poster
      ∧ (nfc_ndef_rec_new
          (nfc_ndef_rec_new_well_known NFC_NDEF_RTD.smart_poster
            [0x78] []).raw).map (fun r => r.rtd) = [NFC_NDEF_RTD.unknown]
      ∧ NFC_NDEF_RTD.unknown ≠ NFC_NDEF_RTD.smart_poster := by
  have hraw : (nfc_ndef_rec_new_well_known NFC_NDEF_RTD.smart_poster
      [0x78] []).raw = [0xD1, 0x01, 0x00, 0x78] := by decide
  refine ⟨by decide, ?_, by decide⟩
  rw [hraw, new_single [0xD1, 0x01, 0x00, 0x78]
    { rec' := [0xD1, 0x01, 0x00, 0x78], type_offset := 3, type_length := 1,
      id_length := 0, payload_length := 0 } (by decide) (by decide)]
  decide

/-- **C3** (amended): for every rtd, type view (size ≤ 255) and payload
view (size < 2^31), parsing the raw wire bytes produced by
`build_well_known(rtd, type, payload)` yields a single record equal to the
built record on tnf (= WellKnown), flags (= {First, Last}), type bytes,
empty id, payload bytes and raw bytes; the parsed record's rtd is
reassigned by dispatch on the type bytes and need not equal the caller's
rtd. -/
theorem C3_roundtrip_amended (rtd : NFC_NDEF_RTD) (type payload : List Nat)
    (ht : type.length ≤ 255) (hp : payload.length < 0x80000000) :
    (nfc_ndef_rec_new (nfc_ndef_rec_new_well_known rtd type payload).raw).map
        (fun r => (r.tnf, r.flags, r.type, r.id, r.payload, r.raw))
      = [((nfc_ndef_rec_new_well_known rtd type payload).tnf,
          (nfc_ndef_rec_new_well_known rtd type payload).flags,
          (nfc_ndef_rec_new_well_known rtd type payload).type,
          (nfc_ndef_rec_new_well_known rtd type payload).id,
          (nfc_ndef_rec_new_well_known rtd type payload).payload,
          (nfc_ndef_rec_new_well_known rtd type payload).raw)]
    ∧ (nfc_ndef_rec_new_well_known rtd type payload).tnf
        = NFC_NDEF_TNF_WELL_KNOWN
    ∧ (nfc_ndef_rec_new_well_known rtd type payload).flags
        = (NFC_NDEF_REC_FLAG_FIRST ||| NFC_NDEF_REC_FLAG_LAST)
    ∧ (nfc_ndef_rec_new_well_known rtd type payload).id = GUtilView.null
    ∧ viewBytes (nfc_ndef_rec_new_well_known rtd type payload).raw
        (nfc_ndef_rec_new_well_known rtd type payload).type = type
    ∧ viewBytes (nfc_ndef_rec_new_well_known rtd type payload).raw
        (nfc_ndef_rec_new_well_known rtd type payload).payload = payload := by
  obtain ⟨rtd', hchain⟩ := wk_roundtrip rtd type payload ht hp
  obtain ⟨hf1, hf2, hf3⟩ := wk_fields rtd type payload
  obtain ⟨hv1, hv2⟩ := wk_views rtd type payload
  refine ⟨?_, ?_, ?_, ?_, ?_, ?_⟩
  · rw [hchain, wk_eq, List.map_cons, List.map_nil]
    rfl
  · rw [wk_eq]
    exact hf1
  · rw [wk_eq]
    exact hf2
  · rw [wk_eq]
    exact hf3
  · rw [wk_eq]
    exact hv1
  · rw [wk_eq]
    exact hv2

theorem C3_roundtrip_witness :
    (nfc_ndef_rec_new
        (nfc_ndef_rec_new_well_known NFC_NDEF_RTD.unknown [0x78]
          [0x61]).raw).map
        (fun r => (r.tnf, r.flags, r.type, r.id, r.payload, r.raw))
      = [((nfc_ndef_rec_new_well_known NFC_NDEF_RTD.unknown [0x78]
            [0x61]).tnf,
          (nfc_ndef_rec_new_well_known NFC_NDEF_RTD.unknown [0x78]
            [0x61]).flags,
          (nfc_ndef_rec_new_well_known NFC_NDEF_RTD.unknown [0x78]
            [0x61]).type,
          (nfc_ndef_rec_new_well_known NFC_NDEF_RTD.unknown [0x78]
            [0x61]).id,
          (nfc_ndef_rec_new_well_known NFC_NDEF_RTD.unknown [0x78]
            [0x61]).payload,
          (nfc_ndef_rec_new_well_known NFC_NDEF_RTD.unknown [0x78]
            [0x61]).raw)]
    ∧ (nfc_ndef_rec_new_well_known NFC_NDEF_RTD.unknown [0x78] [0x61]).tnf
        = NFC_NDEF_TNF_WELL_KNOWN
    ∧ (nfc_ndef_rec_new_well_known NFC_NDEF_RTD.unknown [0x78] [0x61]).flags
        = (NFC_NDEF_REC_FLAG_FIRST ||| NFC_NDEF_REC_FLAG_LAST)
    ∧ (nfc_ndef_rec_new_well_known NFC_NDEF_RTD.unknown [0x78] [0x61]).id
        = GUtilView.null
    ∧ viewBytes
        (nfc_ndef_rec_new_well_known NFC_NDEF_RTD.unknown [0x78] [0x61]).raw
        (nfc_ndef_rec_new_well_known NFC_NDEF_RTD.unknown [0x78] [0x61]).type
        = [0x78]
    ∧ viewBytes
        (nfc_ndef_rec_new_well_known NFC_NDEF_RTD.unknown [0x78] [0x61]).raw
        (nfc_ndef_rec_new_well_known NFC_NDEF_RTD.unknown [0x78]
          [0x61]).payload
        = [0x61] :=
  C3_roundtrip_amended NFC_NDEF_RTD.unknown [0x78] [0x61] (by decide)
    (by decide)

/-- **C4**: no record in a returned chain has the Chunked (CF, 0x20) bit
set in its raw header byte; and when a record with CF set parses
successfully, the loop consumes its total bytes and continues with what
follows, so later valid records are still returned. -/
theorem C4_chunked_dropped (bs : List Nat) :
    (∀ r ∈ nfc_ndef_rec_new bs, (r.raw.getD 0 0) &&& NFC_NDEF_HDR_CF = 0)
    ∧ (∀ (ndef : NfcNdefData) (rest : List Nat),
        nfc_ndef_rec_parse bs = some (ndef, rest) →
        (ndef.rec'.getD 0 0) &&& NFC_NDEF_HDR_CF ≠ 0 →
        nfc_ndef_rec_new_loop bs = nfc_ndef_rec_new_loop rest) := by
  constructor
  · intro r hr
    by_cases hlen : bs.length ≠ 0
    · unfold nfc_ndef_rec_new at hr
      rw [if_pos hlen] at hr
      exact loop_cf_clear_aux bs.length bs (le_refl _) r hr
    · unfold nfc_ndef_rec_new at hr
      rw [if_neg hlen] at hr
      rcases List.mem_singleton.mp hr with rfl
      decide
  · intro ndef rest h hcf
    exact new_loop_eq_skip bs ndef rest h hcf

theorem C4_chunked_witness :
    nfc_ndef_rec_new_loop [0x31, 0x00, 0x00, 0xD1, 0x01, 0x00, 0x78]
      = nfc_ndef_rec_new_loop [0xD1, 0x01, 0x00, 0x78] :=
  (C4_chunked_dropped [0x31, 0x00, 0x00, 0xD1, 0x01, 0x00, 0x78]).2
    { rec' := [0x31, 0x00, 0x00], type_offset := 3, type_length := 0,
      id_length := 0, payload_length := 0 } [0xD1, 0x01, 0x00, 0x78]
    (by decide) (by decide)

/-- **C5**: when the input splits into `k` records that each parse
successfully followed by a non-empty tail on which the record parse fails,
`parse_message` returns exactly the chain built from those `k` records (the
non-chunked ones through the factory, in order); the failing tail never
removes or alters earlier records, and with `k = 0` nothing is returned. -/
theorem C5_error_prefix (k : Nat) (bs : List Nat) (ds : List NfcNdefData)
    (tail : List Nat) (h : parseK k bs = some (ds, tail)) (hne : tail ≠ [])
    (htail : nfc_ndef_rec_parse tail = none) :
    nfc_ndef_rec_new bs =
      (ds.filter
        (fun d => (d.rec'.getD 0 0) &&& NFC_NDEF_HDR_CF == 0)).map
        nfc_ndef_rec_alloc := by
  have hbs : bs.length ≠ 0 := by
    cases k with
    | zero =>
      simp only [parseK, Option.some.injEq, Prod.mk.injEq] at h
      obtain ⟨-, hbs⟩ := h
      subst hbs
      simpa using fun h0 => hne (List.eq_nil_of_length_eq_zero h0)
    | succ k =>
      simp only [parseK] at h
      cases hp : nfc_ndef_rec_parse bs with
      | none => simp only [hp] at h; exact Option.noConfusion h
      | some v =>
        obtain ⟨ndef, rest⟩ := v
        have := parse_rest_length bs ndef rest hp
        omega
  unfold nfc_ndef_rec_new
  rw [if_pos hbs]
  exact loop_of_parseK k bs ds tail h htail

theorem C5_error_prefix_witness :
    nfc_ndef_rec_new [0xD1, 0x01, 0x00, 0x78, 0xFF]
      = (([{ rec' := [0xD1, 0x01, 0x00, 0x78], type_offset := 3,
             type_length := 1, id_length := 0, payload_length := 0 }]
          : List NfcNdefData).filter
          (fun d => (d.rec'.getD 0 0) &&& NFC_NDEF_HDR_CF == 0)).map
        nfc_ndef_rec_alloc :=
  C5_error_prefix 1 [0xD1, 0x01, 0x00, 0x78, 0xFF]
    [{ rec' := [0xD1, 0x01, 0x00, 0x78], type_offset := 3, type_length := 1,
       id_length := 0, payload_length := 0 }] [0xFF] (by decide) (by decide)
    (by decide)

/-- **C6**: `parse_message` on the empty input returns exactly one record —
the zero-initialized empty-NDEF record: tnf Empty, rtd Unknown, NULL
(empty) payload view, empty flags, and no successor (a singleton chain). -/
theorem C6_empty_input :
    nfc_ndef_rec_new [] = [g_object_new_rec]
      ∧ g_object_new_rec.tnf = NFC_NDEF_TNF_EMPTY
      ∧ g_object_new_rec.rtd = NFC_NDEF_RTD.unknown
      ∧ g_object_new_rec.payload = GUtilView.null
      ∧ g_object_new_rec.flags = 0 := by
  refine ⟨?_, rfl, rfl, rfl, rfl⟩
  decide

/-- **C7**: a non-empty input of fewer than 3 bytes yields no records: the
record parse fails on the length guard before reading any field (the
bounds checker confirms no byte is accessed), and the chain is empty. -/
theorem C7_short_input (bs : List Nat) (hne : bs ≠ [])
    (hlen : bs.length < 3) :
    nfc_ndef_rec_new bs = [] ∧ nfc_ndef_rec_parse bs = none
      ∧ nfc_ndef_rec_parse_inbounds bs = true := by
  have hparse : nfc_ndef_rec_parse bs = none := by
    unfold nfc_ndef_rec_parse
    rw [if_pos hlen]
  have hib : nfc_ndef_rec_parse_inbounds bs = true := by
    unfold nfc_ndef_rec_parse_inbounds
    rw [if_pos hlen]
  refine ⟨?_, hparse, hib⟩
  unfold nfc_ndef_rec_new
  rw [if_pos (fun h0 => hne (List.eq_nil_of_length_eq_zero h0))]
  exact new_loop_eq_nil bs hparse

theorem C7_short_input_witness :
    nfc_ndef_rec_new [0xD1] = [] ∧ nfc_ndef_rec_parse [0xD1] = none
      ∧ nfc_ndef_rec_parse_inbounds [0xD1] = true :=
  C7_short_input [0xD1] (by decide) (by decide)

/-- **C8**: `parse_tlv` returns the concatenation, in TLV order, of the
chains obtained by running `parse_message` on the value of each TLV block
whose type byte is 0x03; other block types contribute nothing, and
extraction stops at the 0xFE terminator (or end of stream, by definition of
the walker). -/
theorem C8_tlv_concat :
    (∀ tlv : List Nat,
      nfc_ndef_rec_new_tlv tlv =
        (((nfc_tlv_blocks tlv).filter
            (fun b => b.1 == TLV_NDEF_MESSAGE)).map
          (fun b => nfc_ndef_rec_new b.2)).flatten)
    ∧ (∀ rest : List Nat, nfc_tlv_next (0xFE :: rest) = none) := by
  constructor
  · intro tlv
    exact new_tlv_eq_flatten_aux tlv.length tlv (le_refl _)
  · intro rest
    rw [nfc_tlv_next]
    rfl

/-- **C9**: when `type.size > 255`, the synthesizer writes a TYPE LENGTH
byte equal to `type.size % 256` while still appending all `type.size` type
bytes, so the wire bytes declare a type length different from the number of
type bytes present (`raw` holds the full header plus all type and payload
bytes). -/
theorem C9_typelen_truncated (rtd : NFC_NDEF_RTD) (type payload : List Nat)
    (ht : 255 < type.length) :
    (nfc_ndef_rec_new_well_known rtd type payload).raw.getD 1 0
        = type.length % 256
      ∧ (nfc_ndef_rec_new_well_known rtd type payload).raw.length
        = (if 255 < payload.length then 6 else 3) + type.length
            + payload.length
      ∧ (nfc_ndef_rec_new_well_known rtd type payload).raw.getD 1 0
        ≠ type.length := by
  rw [wk_eq, setup_raw]
  have h1 : (wkNdef type payload).rec'.getD 1 0 = type.length % 256 := by
    show (wkBuf type payload ++ type ++ payload).getD 1 0 = _
    rw [wkBuf]
    split <;> rfl
  have h2 : (wkNdef type payload).rec'.length
      = (if 255 < payload.length then 6 else 3) + type.length
          + payload.length := by
    show (wkBuf type payload ++ type ++ payload).length = _
    rw [wkBuf]
    split <;>
      simp only [List.length_append, List.length_cons, List.length_nil]
  refine ⟨h1, h2, ?_⟩
  rw [h1]
  omega

theorem C9_typelen_witness :
    (nfc_ndef_rec_new_well_known NFC_NDEF_RTD.unknown
        (List.replicate 256 0x41) []).raw.getD 1 0
        = (List.replicate 256 0x41).length % 256
      ∧ (nfc_ndef_rec_new_well_known NFC_NDEF_RTD.unknown
          (List.replicate 256 0x41) []).raw.length
        = (if 255 < ([] : List Nat).length then 6 else 3)
            + (List.replicate 256 0x41).length + ([] : List Nat).length
      ∧ (nfc_ndef_rec_new_well_known NFC_NDEF_RTD.unknown
          (List.replicate 256 0x41) []).raw.getD 1 0
        ≠ (List.replicate 256 0x41).length :=
  C9_typelen_truncated NFC_NDEF_RTD.unknown (List.replicate 256 0x41) []
    (by rw [List.length_replicate]; norm_num)

/-- **C10** (counterexample): the record parsed from `D1 00 00` has
`type_length = 0` yet its type view still points into `raw` (offset 3,
non-NULL), so "only non-empty type, id and payload fields point into the
record's owned raw buffer" fails for the type field. -/
theorem C10_type_view_counterexample :
    (nfc_ndef_rec_new [0xD1, 0x00, 0x00]).map (fun r => r.type)
        = [{ bytes := some 3, size := 0 }]
      ∧ ({ bytes := some 3, size := 0 } : GUtilView) ≠ GUtilView.null := by
  constructor
  · rw [new_single [0xD1, 0x00, 0x00]
      { rec' := [0xD1, 0x00, 0x00], type_offset := 3, type_length := 0,
        id_length := 0, payload_length := 0 } (by decide) (by decide)]
    decide
  · decide

/-- **C10** (amended): for every record built from a parsed descriptor,
payload and id are the all-zero NULL view whenever their lengths are 0 (id
in particular whenever the IL bit is absent) and point into the owned raw
buffer otherwise; the type view, however, always points into raw at
`type_offset`, even when `type_length` is 0. -/
theorem C10_zero_views_amended (bs : List Nat) (ndef : NfcNdefData)
    (rest : List Nat) (h : nfc_ndef_rec_parse bs = some (ndef, rest)) :
    (ndef.payload_length = 0 →
        (nfc_ndef_rec_alloc ndef).payload = GUtilView.null)
      ∧ (ndef.id_length = 0 → (nfc_ndef_rec_alloc ndef).id = GUtilView.null)
      ∧ ((bs.getD 0 0) &&& NFC_NDEF_HDR_IL = 0 → ndef.id_length = 0)
      ∧ (ndef.payload_length ≠ 0 →
        (nfc_ndef_rec_alloc ndef).payload =
          { bytes := some (ndef.type_offset + ndef.type_length
              + ndef.id_length), size := ndef.payload_length })
      ∧ (ndef.id_length ≠ 0 →
        (nfc_ndef_rec_alloc ndef).id =
          { bytes := some (ndef.type_offset + ndef.type_length),
            size := ndef.id_length })
      ∧ (nfc_ndef_rec_alloc ndef).type =
          { bytes := some ndef.type_offset, size := ndef.type_length } := by
  obtain ⟨rtd', hr⟩ := alloc_eq_setup ndef (parse_rec_ne_nil bs ndef rest h)
  refine ⟨?_, ?_, parse_id_of_il_clear bs ndef rest h, ?_, ?_, ?_⟩
  · intro hz
    rw [hr, setup_payload, if_neg (by simp [hz])]
    rfl
  · intro hz
    rw [hr, setup_id, if_neg (by omega)]
    rfl
  · intro hnz
    rw [hr, setup_payload, if_pos hnz]
  · intro hnz
    rw [hr, setup_id, if_pos (by omega)]
  · rw [hr, setup_type]

theorem C10_zero_views_witness :
    (nfc_ndef_rec_alloc
        { rec' := [0xD1, 0x00, 0x00], type_offset := 3, type_length := 0,
          id_length := 0, payload_length := 0 }).payload = GUtilView.null
      ∧ (nfc_ndef_rec_alloc
          { rec' := [0xD1, 0x00, 0x00], type_offset := 3, type_length := 0,
            id_length := 0, payload_length := 0 }).id = GUtilView.null
      ∧ (nfc_ndef_rec_alloc
          { rec' := [0xD1, 0x00, 0x00], type_offset := 3, type_length := 0,
            id_length := 0, payload_length := 0 }).type
        = { bytes := some 3, size := 0 } :=
  ⟨(C10_zero_views_amended [0xD1, 0x00, 0x00]
      { rec' := [0xD1, 0x00, 0x00], type_offset := 3, type_length := 0,
        id_length := 0, payload_length := 0 } [] (by decide)).1 rfl,
   (C10_zero_views_amended [0xD1, 0x00, 0x00]
      { rec' := [0xD1, 0x00, 0x00], type_offset := 3, type_length := 0,
        id_length := 0, payload_length := 0 } [] (by decide)).2.1 rfl,
   (C10_zero_views_amended [0xD1, 0x00, 0x00]
      { rec' := [0xD1, 0x00, 0x00], type_offset := 3, type_length := 0,
        id_length := 0, payload_length := 0 } [] (by decide)).2.2.2.2.2⟩

end Nfcd
